import Mathlib

/-
Verification of the greyhound session-handler addon
(src/session-handler/addon/read-command.cpp and
src/session-handler/addon/pdal-bindings.cpp), as a shallow embedding.

Numeric v8 doubles are modelled as exact integers: the code only ever
compares them or stores them, so the order structure is all that matters
for the properties below.  Error-message strings are reproduced without
the single quotes that appear in the C++ literals.
-/

/-- Fixed transmission chunk size, pdal-bindings.cpp line 10. -/
def chunkSize : Nat := 65536

/-- One requested output field (name, type, size in bytes). -/
structure DimensionRequest where
  name : String
  type : String
  size : Nat
deriving DecidableEq

/-- Ordered sequence of dimension requests. -/
abbrev Schema := List DimensionRequest

/-- Sum of the per-dimension sizes, read-command.cpp lines 18 to 28. -/
def getStride (schema : Schema) : Nat :=
  schema.foldl (fun stride dim => stride + dim.size) 0

/-- One entry of the raw schema descriptor.  The size field records the
result of strtoul on the size string: none models the no-conversion case,
in which strtoul yields 0. -/
structure RawDimension where
  name : String
  type : String
  size : Option Nat
deriving DecidableEq

/-- Numeric reading of a raw size field: strtoul yields 0 when no
conversion is possible. -/
def strtoulVal (o : Option Nat) : Nat := o.getD 0

/-- The dimension-unwrapping loop of ReadCommandFactory::create,
read-command.cpp lines 205 to 224: an entry is pushed only when its
parsed size is nonzero. -/
def parseDimensions : List RawDimension → Schema
  | [] => []
  | d :: ds =>
      if strtoulVal d.size ≠ 0 then
        { name := d.name, type := d.type, size := strtoulVal d.size } ::
          parseDimensions ds
      else
        parseDimensions ds

/-- The schema-descriptor object of argument 2; dimensions is none when
the object has no dimensions member (read-command.cpp line 200). -/
structure SchemaDescriptor where
  dimensions : Option (List RawDimension)
deriving DecidableEq

/-- Schema unwrapping, read-command.cpp lines 197 to 225. -/
def parseSchema (o : SchemaDescriptor) : Schema :=
  match o.dimensions with
  | some dims => parseDimensions dims
  | none => []

/-- The external engine session, reduced to the two queries the addon
makes of it at command-construction time. -/
structure PdalSession where
  numPoints : Nat
  nativeDims : List DimensionRequest
deriving DecidableEq

/-- Engine point count, used by the factory and the constructor. -/
def PdalSession.getNumPoints (s : PdalSession) : Nat := s.numPoints

/-- ReadCommand::schemaOrDefault, read-command.cpp lines 77 to 101: a
non-empty requested schema is kept, otherwise the engine native
dimension list is used. -/
def schemaOrDefault (pdalSession : PdalSession) (reqSchema : Schema) : Schema :=
  if reqSchema.length > 0 then reqSchema else pdalSession.nativeDims

/-- The mutable state of a ReadCommand.  dataAllocated and dataBytes
model the m_data allocation (pointer non-null, extent in bytes); hasRun
records whether the phase-1 run() body has executed. -/
structure ReadCommandState where
  m_host : String
  m_port : Nat
  m_schema : Schema
  m_stride : Nat
  m_cancel : Bool
  dataAllocated : Bool
  dataBytes : Nat
  m_numPoints : Nat
  m_numBytes : Nat
  hasRun : Bool
deriving DecidableEq

/-- ReadCommand::ReadCommand, read-command.cpp lines 52 to 75.  The
buffer is allocated in the constructor body, sized
m_stride * m_pdalSession->getNumPoints(). -/
def mkReadCommand (pdalSession : PdalSession) (host : String) (port : Nat)
    (schema : Schema) : ReadCommandState :=
  let s := schemaOrDefault pdalSession schema
  let stride := getStride s
  { m_host := host
    m_port := port
    m_schema := s
    m_stride := stride
    m_cancel := false
    dataAllocated := true
    dataBytes := stride * pdalSession.getNumPoints
    m_numPoints := 0
    m_numBytes := 0
    hasRun := false }

/-- ReadCommand::setNumPoints, read-command.cpp lines 110 to 114. -/
def setNumPoints (c : ReadCommandState) (numPoints : Nat) : ReadCommandState :=
  { c with m_numPoints := numPoints, m_numBytes := numPoints * c.m_stride }

/-- The three query variants with their constructor parameters. -/
inductive ReadQuery where
  | unindexed (start count : Nat)
  | quadIndex (bbox : Option (Int × Int × Int × Int)) (depthBegin depthEnd : Nat)
  | pointRadius (is3d : Bool) (radius x y z : Int)
deriving DecidableEq

/-- A constructed read command: shared base state plus variant data. -/
structure ReadCommand where
  base : ReadCommandState
  query : ReadQuery
deriving DecidableEq

/-- ReadCommandUnindexed construction (base constructor plus variant
fields). -/
def mkUnindexed (pdalSession : PdalSession) (host : String) (port : Nat)
    (schema : Schema) (start count : Nat) : ReadCommand :=
  { base := mkReadCommand pdalSession host port schema
    query := .unindexed start count }

/-- ReadCommandQuadIndex construction. -/
def mkQuadIndex (pdalSession : PdalSession) (host : String) (port : Nat)
    (schema : Schema) (bbox : Option (Int × Int × Int × Int))
    (depthBegin depthEnd : Nat) : ReadCommand :=
  { base := mkReadCommand pdalSession host port schema
    query := .quadIndex bbox depthBegin depthEnd }

/-- ReadCommandPointRadius construction. -/
def mkPointRadius (pdalSession : PdalSession) (host : String) (port : Nat)
    (schema : Schema) (is3d : Bool) (radius x y z : Int) : ReadCommand :=
  { base := mkReadCommand pdalSession host port schema
    query := .pointRadius is3d radius x y z }

/-- The shared shape of the three run() bodies, read-command.cpp lines
116 to 164: the engine call (external) returns a point count, which is
stored through setNumPoints before the transmitter is bound. -/
def runReadCommand (c : ReadCommand) (engineNumPoints : Nat) : ReadCommand :=
  { c with base := { setNumPoints c.base engineNumPoints with hasRun := true } }

/-- A v8 argument value, restricted to the shapes the factory tests. -/
inductive JsValue where
  | undefined
  | str (s : String)
  | int (n : Nat)
  | num (x : Int)
  | boolean (b : Bool)
  | array (xs : List JsValue)
  | obj (o : SchemaDescriptor)
  | func

/-- IsInt32 or IsUint32, read-command.cpp lines 8 to 11. -/
def isInteger : JsValue → Bool
  | .int _ => true
  | _ => false

/-- Negation of IsUndefined, read-command.cpp lines 13 to 16. -/
def isDefined : JsValue → Bool
  | .undefined => false
  | _ => true

/-- IsString. -/
def isString : JsValue → Bool
  | .str _ => true
  | _ => false

/-- IsObject. -/
def isObject : JsValue → Bool
  | .obj _ => true
  | _ => false

/-- IsFunction. -/
def isFunction : JsValue → Bool
  | .func => true
  | _ => false

/-- IsArray. -/
def isArray : JsValue → Bool
  | .array _ => true
  | _ => false

/-- IsBoolean. -/
def isBoolean : JsValue → Bool
  | .boolean _ => true
  | _ => false

/-- IsNumber: integers are numbers in v8. -/
def isNumber : JsValue → Bool
  | .int _ => true
  | .num _ => true
  | _ => false

/-- Utf8Value of ToString, on the values the factory has checked. -/
def stringValue : JsValue → String
  | .str s => s
  | _ => ""

/-- Uint32Value, applied only after isInteger checks. -/
def uint32Value : JsValue → Nat
  | .int n => n
  | _ => 0

/-- NumberValue, applied only after IsNumber checks. -/
def numberValue : JsValue → Int
  | .int n => (n : Int)
  | .num x => x
  | _ => 0

/-- BooleanValue. -/
def booleanValue : JsValue → Bool
  | .boolean b => b
  | _ => false

/-- ToObject, applied only after IsObject checks. -/
def objectValue : JsValue → SchemaDescriptor
  | .obj o => o
  | _ => { dimensions := none }

/-- Array element list of an argument. -/
def arrayElems : JsValue → List JsValue
  | .array xs => xs
  | _ => []

/-- Outcome of a factory invocation: a thrown runtime_error (no
callback), an errorCallback invocation with a null command, or a built
command. -/
inductive FactoryResult where
  | fatal (msg : String)
  | errorCb (msg : String)
  | command (c : ReadCommand)

/-- The 7-argument spatial branch body, read-command.cpp lines 262 to
321.  NOTE the second coordinate test at line 284 compares yMax against
xMin, not yMin; the embedding reproduces the source as written. -/
def quadDispatch (pdalSession : PdalSession) (host : String) (port : Nat)
    (schema : Schema) (a3 : JsValue) (depthBegin depthEnd : Nat) : FactoryResult :=
  if isDefined a3 then
    let bbox := arrayElems a3
    let e0 := bbox.getD 0 .undefined
    let e1 := bbox.getD 1 .undefined
    let e2 := bbox.getD 2 .undefined
    let e3 := bbox.getD 3 .undefined
    if isNumber e0 && isNumber e1 && isNumber e2 && isNumber e3 then
      let xMin := numberValue e0
      let yMin := numberValue e1
      let xMax := numberValue e2
      let yMax := numberValue e3
      if xMax ≥ xMin ∧ yMax ≥ xMin then
        .command (mkQuadIndex pdalSession host port schema
          (some (xMin, yMin, xMax, yMax)) depthBegin depthEnd)
      else
        .errorCb "Invalid coords in query"
    else
      .errorCb "Invalid coord types in query"
  else
    .command (mkQuadIndex pdalSession host port schema none depthBegin depthEnd)

/-- ReadCommandFactory::create, read-command.cpp lines 166 to 361. -/
def create (args : List JsValue) (pdalSession : PdalSession) : FactoryResult :=
  if args.length = 0 || !isFunction (args.getD (args.length - 1) .undefined) then
    .fatal "Invalid callback supplied to read"
  else
    let a0 := args.getD 0 .undefined
    let a1 := args.getD 1 .undefined
    let a2 := args.getD 2 .undefined
    if decide (3 < args.length) && (isDefined a0 && isString a0)
        && (isDefined a1 && isInteger a1)
        && (isDefined a2 && isObject a2) then
      let host := stringValue a0
      let port := uint32Value a1
      let schema := parseSchema (objectValue a2)
      let a3 := args.getD 3 .undefined
      let a4 := args.getD 4 .undefined
      let a5 := args.getD 5 .undefined
      if decide (args.length = 6) && (isDefined a3 && isInteger a3)
          && (isDefined a4 && isInteger a4) then
        let start := uint32Value a3
        let count := uint32Value a4
        if start < pdalSession.getNumPoints then
          .command (mkUnindexed pdalSession host port schema start count)
        else
          .errorCb "Invalid start in read request"
      else if decide (args.length = 7)
          && ((isDefined a3 && isArray a3 && decide (4 ≤ (arrayElems a3).length))
              || !isDefined a3)
          && (isDefined a4 && isInteger a4)
          && (isDefined a5 && isInteger a5) then
        quadDispatch pdalSession host port schema a3 (uint32Value a4) (uint32Value a5)
      else if decide (args.length = 9)
          && (isDefined a3 && isBoolean a3)
          && (isDefined a4 && isNumber a4)
          && (isDefined a5 && isNumber a5)
          && (isDefined (args.getD 6 .undefined) && isNumber (args.getD 6 .undefined))
          && (isDefined (args.getD 7 .undefined) && isNumber (args.getD 7 .undefined)) then
        .command (mkPointRadius pdalSession host port schema
          (booleanValue a3) (numberValue a4) (numberValue a5)
          (numberValue (args.getD 6 .undefined)) (numberValue (args.getD 7 .undefined)))
      else
        .errorCb "Could not identify read from args"
    else
      .errorCb "Host, port, and callback must be supplied"

/-- A demonstration session: 10 points, one native 8-byte dimension. -/
def demoSession : PdalSession :=
  { numPoints := 10, nativeDims := [{ name := "X", type := "floating", size := 8 }] }

/-- A demonstration one-dimension requested schema of stride 4. -/
def demoSchema : Schema := [{ name := "X", type := "floating", size := 4 }]

/-- A 7-argument call whose bbox has yMax 3 below yMin 5 but yMax above
xMin 0: the source accepts it. -/
def c1ArgsAccepted : List JsValue :=
  [.str "h", .int 80, .obj { dimensions := some [] },
   .array [.num 0, .num 5, .num 1, .num 3], .int 0, .int 8, .func]

/-- A 7-argument call whose bbox satisfies yMax 2 at or above yMin 0 and
xMax 6 at or above xMin 5, yet yMax 2 is below xMin 5: the source
rejects it. -/
def c1ArgsRejected : List JsValue :=
  [.str "h", .int 80, .obj { dimensions := some [] },
   .array [.num 5, .num 0, .num 6, .num 2], .int 0, .int 8, .func]

/-- The ReadData handle tracked by the bindings object; only its cancel
flag matters to the cancellation registry. -/
structure ReadDataHandle where
  cancel : Bool
deriving DecidableEq

/-- The m_readData member of PdalBindings: none models the null pointer
of the default-initialised member (pdal-bindings.cpp line 17). -/
structure PdalBindingsState where
  m_readData : Option ReadDataHandle
deriving DecidableEq

/-- Freshly constructed bindings object: m_readData is null. -/
def initBindings : PdalBindingsState := { m_readData := none }

/-- PdalBindings::read storing the new ReadData, pdal-bindings.cpp line
258: m_readData is set to a fresh handle with the flag clear. -/
def startRead (s : PdalBindingsState) : PdalBindingsState :=
  { s with m_readData := some { cancel := false } }

/-- The after-send cleanup, pdal-bindings.cpp lines 383 to 393: it
deletes the heap ReadData but never touches the m_readData member, which
keeps pointing at the (now deleted) object.  The member therefore stays
non-null, which is all that cancel() tests. -/
def completeRead (s : PdalBindingsState) : PdalBindingsState := s

/-- PdalBindings::cancel, pdal-bindings.cpp lines 404 to 420: if
m_readData is non-null, set its flag and return true, else return
false. -/
def cancelOp (s : PdalBindingsState) : Bool × PdalBindingsState :=
  match s.m_readData with
  | some _ => (true, { s with m_readData := some { cancel := true } })
  | none => (false, s)

/-- The transmit while loop of PdalBindings::read, pdal-bindings.cpp
lines 359 to 369, with an explicit iteration counter k: while the offset
is below numBytes and the cancel flag reads false, transmit the chunk at
offset of size min(chunkSize, numBytes - offset) and advance by
chunkSize.  obs k is the value of readData->cancel observed at the check
before iteration k.  The fuel argument only bounds the recursion; the
caller passes enough for the loop to reach its exit test. -/
def chunkLoopFuel (numBytes : Nat) (obs : Nat → Bool) :
    Nat → Nat → Nat → List (Nat × Nat)
  | 0, _, _ => []
  | fuel + 1, k, offset =>
    if offset < numBytes ∧ obs k = false then
      (offset, min chunkSize (numBytes - offset)) ::
        chunkLoopFuel numBytes obs fuel (k + 1) (offset + chunkSize)
    else []

/-- The chunk writes issued for a buffer of numBytes bytes under the
cancel observations obs, starting at offset 0. -/
def transmitChunksObs (numBytes : Nat) (obs : Nat → Bool) : List (Nat × Nat) :=
  chunkLoopFuel numBytes obs (numBytes / chunkSize + 1) 0 0

/-- The chunk writes of an uncancelled transmission. -/
def transmitChunks (numBytes : Nat) : List (Nat × Nat) :=
  transmitChunksObs numBytes (fun _ => false)

/-- Offset and length of the k-th chunk of a numBytes transmission. -/
def chunkAt (numBytes k : Nat) : Nat × Nat :=
  (k * chunkSize, min chunkSize (numBytes - k * chunkSize))

/-- Number of chunks of a numBytes transmission (ceiling division). -/
def numChunks (numBytes : Nat) : Nat := (numBytes + chunkSize - 1) / chunkSize

/-- Total byte count of a list of chunk writes. -/
def chunkBytes (cs : List (Nat × Nat)) : Nat := (cs.map (fun c => c.2)).sum

/-- One invocation of the completion callback: either the single
error-message argument, or the null-error counts triple. -/
inductive CallbackCall where
  | errArg (msg : String)
  | counts (numPoints numBytes : Nat)
deriving DecidableEq

/-- Outcome of the external engine read call made by the retrieval task:
either a produced point count (the call news up the data array), or a
caught failure message (runtime_error text, or the fixed Unknown error
text for other exceptions, pdal-bindings.cpp lines 301 to 308). -/
inductive EngineOutcome where
  | success (numPoints : Nat)
  | failure (msg : String)

/-- Environment of one read pipeline execution: the session stride, the
engine outcome, and the cancel-flag values observed by the transmit
loop. -/
structure PipelineEnv where
  stride : Nat
  engine : EngineOutcome
  obs : Nat → Bool

/-- The ReadData fields the pipeline mutates: data models whether the
point buffer is currently allocated, and errMsg is the captured failure
message (empty means none, as the code tests errMsg.size()). -/
structure ReadData where
  data : Bool
  numPoints : Nat
  numBytes : Nat
  errMsg : String
deriving DecidableEq

/-- Control position of the pipeline, one constructor per scheduled
piece of pdal-bindings.cpp read(): queuedRead before the retrieval work
callback (lines 274 to 309) runs; retrieved before the after-work
callback (lines 310 to 397) runs; sending k offset inside the transmit
work callback at the loop test of iteration k (lines 362 to 369); sent
before the after-send callback (lines 383 to 393) runs; failedDone and
doneOk after the respective cleanups. -/
inductive Phase where
  | queuedRead
  | retrieved
  | failedDone
  | sending (k offset : Nat)
  | sent
  | doneOk
deriving DecidableEq

/-- The two terminal phases. -/
def isTerminal : Phase → Bool
  | .failedDone => true
  | .doneOk => true
  | _ => false

/-- Pipeline state: control position, ReadData fields, the completion
callback invocations so far, the chunk writes so far, the number of
delete executions of the data array, and whether the transmission task
was ever queued. -/
structure PipState where
  phase : Phase
  rd : ReadData
  cbCalls : List CallbackCall
  chunks : List (Nat × Nat)
  frees : Nat
  sendQueued : Bool
deriving DecidableEq

/-- State right after read() queues the retrieval work. -/
def initState : PipState :=
  { phase := .queuedRead
    rd := { data := false, numPoints := 0, numBytes := 0, errMsg := "" }
    cbCalls := []
    chunks := []
    frees := 0
    sendQueued := false }

/-- One scheduler step of the read pipeline of pdal-bindings.cpp.
From queuedRead, the retrieval work callback runs: on success the engine
news up the data array, the point count is stored and
numBytes = numPoints * stride (lines 281 to 299); on failure the message
is captured (lines 301 to 308).  From retrieved, the after-work callback
runs: a non-empty errMsg leads to the single-argument error callback,
the delete of the data array and no transmission (lines 313 to 322);
otherwise the counts callback fires and the send work is queued (lines
326 to 350).  From sending, one loop-test-plus-transmit iteration runs
(lines 362 to 369).  From sent, the after-send callback deletes the data
array (lines 383 to 393).  Terminal phases are absorbing. -/
def step (env : PipelineEnv) (s : PipState) : PipState :=
  match s.phase with
  | .queuedRead =>
      match env.engine with
      | .success np =>
          { s with phase := .retrieved
                   rd := { s.rd with
                            data := true
                            numPoints := np
                            numBytes := np * env.stride } }
      | .failure m =>
          { s with phase := .retrieved, rd := { s.rd with errMsg := m } }
  | .retrieved =>
      if s.rd.errMsg ≠ "" then
        { s with phase := .failedDone
                 cbCalls := s.cbCalls ++ [.errArg s.rd.errMsg]
                 frees := s.frees + 1
                 rd := { s.rd with data := false } }
      else
        { s with phase := .sending 0 0
                 cbCalls := s.cbCalls ++ [.counts s.rd.numPoints s.rd.numBytes]
                 sendQueued := true }
  | .sending k offset =>
      if offset < s.rd.numBytes ∧ env.obs k = false then
        { s with phase := .sending (k + 1) (offset + chunkSize)
                 chunks := s.chunks ++ [(offset, min chunkSize (s.rd.numBytes - offset))] }
      else
        { s with phase := .sent }
  | .sent =>
      { s with phase := .doneOk, frees := s.frees + 1, rd := { s.rd with data := false } }
  | .failedDone => s
  | .doneOk => s

/-- The pipeline state after n scheduler steps. -/
def runFor (env : PipelineEnv) : Nat → PipState
  | 0 => initState
  | n + 1 => step env (runFor env n)

/-- A successful 3-point retrieval at stride 4, never cancelled. -/
def envSuccess : PipelineEnv :=
  { stride := 4, engine := .success 3, obs := fun _ => false }

/-- A 70000-point retrieval at stride 2 (140000 bytes, three chunks),
with the cancel flag observed true from the check before chunk 1 on. -/
def envCancel : PipelineEnv :=
  { stride := 2, engine := .success 70000, obs := fun k => decide (1 ≤ k) }

/-- A retrieval that fails with the message boom, never cancelled. -/
def envFailure : PipelineEnv :=
  { stride := 4, engine := .failure "boom", obs := fun _ => false }

theorem getStride_go (s : Schema) (a : Nat) :
    s.foldl (fun stride dim => stride + dim.size) a
      = a + (s.map (fun d => d.size)).sum := by
  induction s generalizing a with
  | nil => simp
  | cons d ds ih => simp [List.foldl_cons, ih, Nat.add_assoc]

theorem getStride_eq_sum (s : Schema) :
    getStride s = (s.map (fun d => d.size)).sum := by
  simpa [getStride] using getStride_go s 0

/-- C8: in the schema unwrapping of the Command Factory, every dimension
entry whose size parses to zero or fails to parse is dropped, leaving no
trace in the resolved schema; the remaining entries are kept in order
with their parsed name, type and size, and the stride counts exactly the
kept sizes. -/
theorem c8_zero_size_dimension_dropped (dims : List RawDimension) :
    parseDimensions dims
      = (dims.filter (fun d => strtoulVal d.size != 0)).map
          (fun d => { name := d.name, type := d.type, size := strtoulVal d.size })
    ∧ getStride (parseDimensions dims)
      = ((dims.filter (fun d => strtoulVal d.size != 0)).map
          (fun d => strtoulVal d.size)).sum := by
  have h : parseDimensions dims
      = (dims.filter (fun d => strtoulVal d.size != 0)).map
          (fun d => { name := d.name, type := d.type, size := strtoulVal d.size }) := by
    induction dims with
    | nil => rfl
    | cons d ds ih =>
      by_cases hd : strtoulVal d.size ≠ 0
      · simp [parseDimensions, hd, List.filter_cons, ih]
      · simp at hd
        simp [parseDimensions, hd, List.filter_cons, ih]
  refine ⟨h, ?_⟩
  rw [h, getStride_eq_sum, List.map_map]
  rfl

/-- C9: every ReadCommand variant allocates its buffer already in the
base constructor, before any run() has executed, with size equal to the
resolved-schema stride times the dataset total point count; the base
state is identical across variants, so the allocation is independent of
start, count, bbox, depth and radius parameters. -/
theorem c9_constructor_allocates_full_dataset_buffer
    (sess : PdalSession) (host : String) (port : Nat) (schema : Schema)
    (start count depthBegin depthEnd : Nat)
    (bbox : Option (Int × Int × Int × Int))
    (is3d : Bool) (radius x y z : Int) :
    ((mkUnindexed sess host port schema start count).base.dataAllocated = true
      ∧ (mkUnindexed sess host port schema start count).base.hasRun = false
      ∧ (mkUnindexed sess host port schema start count).base.dataBytes
          = getStride (schemaOrDefault sess schema) * sess.getNumPoints)
    ∧ (mkQuadIndex sess host port schema bbox depthBegin depthEnd).base
        = (mkUnindexed sess host port schema start count).base
    ∧ (mkPointRadius sess host port schema is3d radius x y z).base
        = (mkUnindexed sess host port schema start count).base :=
  ⟨⟨rfl, rfl, rfl⟩, rfl, rfl⟩

/-- C1 (code bug): the coordinate validation at read-command.cpp line
284 tests yMax against xMin instead of yMin.  A bbox with yMax 3 below
yMin 5 is accepted and a command is built, while a bbox with yMax 2 at
or above yMin 0 (and xMax above xMin) is rejected with the
coordinate-validation error, both contrary to the claimed
xMax at-or-above xMin and yMax at-or-above yMin rule. -/
theorem c1_bbox_check_compares_ymax_with_xmin :
    (create c1ArgsAccepted demoSession
        = .command (mkQuadIndex demoSession "h" 80 [] (some (0, 5, 1, 3)) 0 8)
      ∧ (3 : Int) < 5)
    ∧ (create c1ArgsRejected demoSession = .errorCb "Invalid coords in query"
      ∧ (0 : Int) ≤ 2 ∧ (5 : Int) ≤ 6) := by
  exact ⟨⟨rfl, by norm_num⟩, rfl, by norm_num, by norm_num⟩

theorem getD_take_lt {α : Type} (xs : List α) (m i : Nat) (d : α) (hi : i < m) :
    (xs.take m).getD i d = xs.getD i d := by
  induction xs generalizing m i with
  | nil => simp
  | cons a as ih =>
    cases m with
    | zero => omega
    | succ m =>
      cases i with
      | zero => simp
      | succ i => simpa using ih m i (by omega)

/-- C10: in the 7-argument spatial dispatch, a defined argument 3 is
accepted as a bbox exactly when it is an array of length at least 4, and
only its first four elements are ever consulted; a defined array of
fewer than 4 elements makes the call fall through to the
could-not-identify failure instead of a coordinate-validation error. -/
theorem c10_seven_arg_bbox_dispatch (h : String) (p : Nat) (o : SchemaDescriptor)
    (xs : List JsValue) (d0 d1 : Nat) (sess : PdalSession) :
    (4 ≤ xs.length →
        create [.str h, .int p, .obj o, .array xs, .int d0, .int d1, .func] sess
          = quadDispatch sess h p (parseSchema o) (.array xs) d0 d1
        ∧ create [.str h, .int p, .obj o, .array xs, .int d0, .int d1, .func] sess
          = create [.str h, .int p, .obj o, .array (xs.take 4), .int d0, .int d1, .func] sess)
    ∧ (xs.length < 4 →
        create [.str h, .int p, .obj o, .array xs, .int d0, .int d1, .func] sess
          = .errorCb "Could not identify read from args") := by
  constructor
  · intro h4
    have hqd : create [.str h, .int p, .obj o, .array xs, .int d0, .int d1, .func] sess
        = quadDispatch sess h p (parseSchema o) (.array xs) d0 d1 := by
      simp [create, isFunction, isDefined, isString, isInteger, isObject, isArray,
        arrayElems, stringValue, uint32Value, objectValue, h4]
    have hqd2 : create [.str h, .int p, .obj o, .array (xs.take 4), .int d0, .int d1, .func] sess
        = quadDispatch sess h p (parseSchema o) (.array (xs.take 4)) d0 d1 := by
      simp [create, isFunction, isDefined, isString, isInteger, isObject, isArray,
        arrayElems, stringValue, uint32Value, objectValue, h4]
    have htake : quadDispatch sess h p (parseSchema o) (.array (xs.take 4)) d0 d1
        = quadDispatch sess h p (parseSchema o) (.array xs) d0 d1 := by
      simp only [quadDispatch, isDefined, arrayElems]
      rw [getD_take_lt xs 4 0 _ (by omega), getD_take_lt xs 4 1 _ (by omega),
        getD_take_lt xs 4 2 _ (by omega), getD_take_lt xs 4 3 _ (by omega)]
    exact ⟨hqd, by rw [hqd, hqd2, htake]⟩
  · intro hlt
    have hn : ¬ (4 ≤ xs.length) := by omega
    simp [create, isFunction, isDefined, isString, isInteger, isObject, isArray,
      isBoolean, arrayElems, stringValue, uint32Value, objectValue, hn]

/-- C10 witness: a defined 5-element array as argument 3 gives the same
outcome as its first four elements alone, while a defined 3-element
array falls through to the could-not-identify failure. -/
theorem c10_witness :
    (create [.str "h", .int 1, .obj { dimensions := none },
        .array [.num 0, .num 0, .num 1, .num 1, .num 9], .int 0, .int 1, .func]
        demoSession
      = create [.str "h", .int 1, .obj { dimensions := none },
        .array [.num 0, .num 0, .num 1, .num 1], .int 0, .int 1, .func]
        demoSession)
    ∧ create [.str "h", .int 1, .obj { dimensions := none },
        .array [.num 0, .num 0, .num 1], .int 0, .int 1, .func] demoSession
      = .errorCb "Could not identify read from args" :=
  ⟨((c10_seven_arg_bbox_dispatch "h" 1 { dimensions := none }
      [.num 0, .num 0, .num 1, .num 1, .num 9] 0 1 demoSession).1 (by simp)).2,
   (c10_seven_arg_bbox_dispatch "h" 1 { dimensions := none }
      [.num 0, .num 0, .num 1] 0 1 demoSession).2 (by simp)⟩

/-- C3 counterexample: after a read has completed, cancel still returns
true (the claim says false once the task completed), and two consecutive
cancel calls on a live handle return true both times (the claim says
true then false). -/
theorem c3_cancel_twice_counterexample :
    (cancelOp (completeRead (startRead initBindings))).1 = true
    ∧ (cancelOp ((cancelOp (startRead initBindings)).2)).1 = true :=
  ⟨rfl, rfl⟩

/-- C3 amended: cancel returns true exactly when a read has been started
on the binding object, that is when the m_readData member is non-null;
completion never clears the member, so cancel keeps returning true after
the task has finished, and repeated cancel calls all return true.  It
returns false only when no read was ever started.  It sets the flag of
the tracked handle. -/
theorem c3_cancel_returns_pointer_set (s : PdalBindingsState) :
    ((cancelOp s).1 = s.m_readData.isSome)
    ∧ (s.m_readData.isSome = true →
        (cancelOp s).2.m_readData = some { cancel := true }
        ∧ (cancelOp (cancelOp s).2).1 = true
        ∧ (cancelOp (completeRead (cancelOp s).2)).1 = true)
    ∧ (cancelOp initBindings).1 = false := by
  cases hs : s.m_readData <;>
    simp [cancelOp, completeRead, initBindings, hs]

/-- C3 witness: on a freshly started read the amended description is
realised concretely. -/
theorem c3_witness :
    (cancelOp (startRead initBindings)).1 = (startRead initBindings).m_readData.isSome
    ∧ (cancelOp (cancelOp (startRead initBindings)).2).1 = true :=
  ⟨(c3_cancel_returns_pointer_set (startRead initBindings)).1,
    ((c3_cancel_returns_pointer_set (startRead initBindings)).2.1 rfl).2.1⟩

theorem chunkLoopFuel_closed (n : Nat) :
    ∀ fuel k, numChunks n ≤ k + fuel →
      chunkLoopFuel n (fun _ => false) fuel k (k * chunkSize)
        = (List.range' k (numChunks n - k)).map (chunkAt n) := by
  intro fuel
  induction fuel with
  | zero =>
    intro k hk
    have h0 : numChunks n - k = 0 := by omega
    simp [chunkLoopFuel, h0]
  | succ fuel ih =>
    intro k hk
    by_cases hlt : k * chunkSize < n
    · have hkc : k < numChunks n := by
        simp only [numChunks, chunkSize] at *
        omega
      have hsub : numChunks n - k = (numChunks n - (k + 1)) + 1 := by omega
      have hoff : k * chunkSize + chunkSize = (k + 1) * chunkSize := by ring
      rw [hsub, List.range'_succ, List.map_cons]
      simp only [chunkLoopFuel, hlt, and_true, if_pos, true_and]
      rw [hoff, ih (k + 1) (by omega)]
      rfl
    · have hge : numChunks n ≤ k := by
        simp only [numChunks, chunkSize] at *
        omega
      have h0 : numChunks n - k = 0 := by omega
      simp [chunkLoopFuel, hlt, h0]

theorem transmitChunks_closed (n : Nat) :
    transmitChunks n = (List.range (numChunks n)).map (chunkAt n) := by
  have h := chunkLoopFuel_closed n (n / chunkSize + 1) 0
    (by simp only [numChunks, chunkSize]; omega)
  simpa [transmitChunks, transmitChunksObs, List.range_eq_range'] using h

theorem chunkBytes_append (a b : List (Nat × Nat)) :
    chunkBytes (a ++ b) = chunkBytes a + chunkBytes b := by
  simp [chunkBytes]

theorem chunkBytes_range_map (nb k : Nat) :
    chunkBytes ((List.range k).map (chunkAt nb)) = min nb (k * chunkSize) := by
  induction k with
  | zero => simp [chunkBytes]
  | succ k ih =>
    rw [List.range_succ, List.map_append, chunkBytes_append, ih]
    simp only [List.map_cons, List.map_nil, chunkBytes, chunkAt, List.sum_cons,
      List.sum_nil, chunkSize]
    simp only [Nat.min_def]
    split_ifs <;> omega

theorem chunkBytes_transmitChunks (n : Nat) :
    chunkBytes (transmitChunks n) = n := by
  rw [transmitChunks_closed, chunkBytes_range_map]
  simp only [numChunks, chunkSize, Nat.min_def]
  split_ifs <;> omega

theorem transmitChunks_chain (n : Nat) :
    List.Chain' (fun a b : Nat × Nat => a.1 + a.2 = b.1 ∧ a.1 < b.1)
      (transmitChunks n) := by
  rw [transmitChunks_closed, List.chain'_map]
  cases h : numChunks n with
  | zero => simp
  | succ m =>
    rw [List.chain'_range_succ]
    intro i hi
    have hin : (i + 1) * chunkSize < n := by
      have : i + 1 < numChunks n := by omega
      simp only [numChunks, chunkSize] at this ⊢
      omega
    constructor
    · simp only [chunkAt, chunkSize] at hin ⊢
      rw [Nat.min_eq_left (by omega)]
      omega
    · simp only [chunkAt, chunkSize]
      omega

theorem transmitChunks_length (n : Nat) :
    (transmitChunks n).length = numChunks n := by
  rw [transmitChunks_closed]
  simp

theorem transmitChunks_getD (n k : Nat) (hk : k < numChunks n) :
    (transmitChunks n).getD k (0, 0) = chunkAt n k := by
  rw [transmitChunks_closed, List.getD_eq_getElem?_getD, List.getElem?_map,
    List.getElem?_range hk]
  rfl

/-- C5: the uncancelled transmit loop issues exactly the chunks
(k * 64Ki, min 64Ki (numBytes - k * 64Ki)) for k below the chunk count,
in order: the offsets are strictly increasing, each chunk starts where
the previous one ended (no gap or overlap), the byte totals cover
numBytes exactly, every chunk except the final one is a full 64 KiB, the
final chunk is numBytes mod 64 KiB (or a full chunk when it divides
evenly), and a zero-byte buffer produces zero chunk writes. -/
theorem c5_chunk_schedule (n : Nat) :
    transmitChunks n = (List.range (numChunks n)).map (chunkAt n)
    ∧ chunkBytes (transmitChunks n) = n
    ∧ List.Chain' (fun a b : Nat × Nat => a.1 + a.2 = b.1 ∧ a.1 < b.1)
        (transmitChunks n)
    ∧ (∀ k, k + 1 < (transmitChunks n).length →
        ((transmitChunks n).getD k (0, 0)).2 = chunkSize)
    ∧ (0 < (transmitChunks n).length →
        ((transmitChunks n).getD ((transmitChunks n).length - 1) (0, 0)).2
          = if n % chunkSize = 0 then chunkSize else n % chunkSize)
    ∧ (n = 0 → transmitChunks n = []) := by
  refine ⟨transmitChunks_closed n, chunkBytes_transmitChunks n,
    transmitChunks_chain n, ?_, ?_, ?_⟩
  · intro k hk
    rw [transmitChunks_length] at hk
    rw [transmitChunks_getD n k (by omega)]
    simp only [chunkAt, numChunks, chunkSize, Nat.min_def] at hk ⊢
    split_ifs <;> omega
  · intro h0
    rw [transmitChunks_length] at h0 ⊢
    rw [transmitChunks_getD n (numChunks n - 1) (by omega)]
    simp only [chunkAt, numChunks, chunkSize, Nat.min_def] at h0 ⊢
    split_ifs <;> omega
  · intro h0
    subst h0
    rfl

/-- C5 witness: for a 131073-byte buffer the first chunk is a full 64
KiB and the final chunk has the size 131073 mod 64 Ki, namely 1; a
zero-byte buffer produces no chunks. -/
theorem c5_witness :
    ((transmitChunks 131073).getD 0 (0, 0)).2 = chunkSize
    ∧ (((transmitChunks 131073).getD ((transmitChunks 131073).length - 1) (0, 0)).2
        = if 131073 % chunkSize = 0 then chunkSize else 131073 % chunkSize)
    ∧ transmitChunks 0 = [] :=
  ⟨(c5_chunk_schedule 131073).2.2.2.1 0 (by decide),
   (c5_chunk_schedule 131073).2.2.2.2.1 (by decide),
   (c5_chunk_schedule 0).2.2.2.2.2 rfl⟩

theorem step_phase_ne_queued (env : PipelineEnv) (s : PipState) :
    (step env s).phase ≠ .queuedRead := by
  cases hp : s.phase with
  | queuedRead => cases he : env.engine <;> simp [step, hp, he]
  | retrieved => by_cases hm : s.rd.errMsg ≠ "" <;> simp [step, hp, hm]
  | sending k offset =>
      by_cases hc : offset < s.rd.numBytes ∧ env.obs k = false <;>
        simp [step, hp, hc]
  | sent => simp [step, hp]
  | failedDone => simp [step, hp]
  | doneOk => simp [step, hp]

theorem runFor_queued_eq_init (env : PipelineEnv) (n : Nat)
    (h : (runFor env n).phase = .queuedRead) : runFor env n = initState := by
  cases n with
  | zero => rfl
  | succ n =>
    simp only [runFor] at h
    exact absurd h (step_phase_ne_queued env (runFor env n))

theorem runFor_frees (env : PipelineEnv) (n : Nat) :
    (runFor env n).frees = if isTerminal (runFor env n).phase then 1 else 0 := by
  induction n with
  | zero => rfl
  | succ n ih =>
    simp only [runFor]
    cases hp : (runFor env n).phase with
    | queuedRead =>
        rw [hp] at ih; simp only [isTerminal, if_neg Bool.false_ne_true] at ih
        cases he : env.engine <;> simp [step, hp, he, isTerminal, ih]
    | retrieved =>
        rw [hp] at ih; simp only [isTerminal, if_neg Bool.false_ne_true] at ih
        by_cases hm : (runFor env n).rd.errMsg ≠ "" <;>
          simp [step, hp, hm, isTerminal, ih]
    | sending k offset =>
        rw [hp] at ih; simp only [isTerminal, if_neg Bool.false_ne_true] at ih
        by_cases hc : offset < (runFor env n).rd.numBytes ∧ env.obs k = false <;>
          simp [step, hp, hc, isTerminal, ih]
    | sent =>
        rw [hp] at ih; simp only [isTerminal, if_neg Bool.false_ne_true] at ih
        simp [step, hp, isTerminal, ih]
    | failedDone =>
        rw [hp] at ih; simp only [isTerminal, if_pos rfl] at ih
        simp [step, hp, isTerminal, ih]
    | doneOk =>
        rw [hp] at ih; simp only [isTerminal, if_pos rfl] at ih
        simp [step, hp, isTerminal, ih]

theorem runFor_numBytes (env : PipelineEnv) (n : Nat) :
    (runFor env n).phase ≠ .queuedRead →
      (runFor env n).rd.numBytes = (runFor env n).rd.numPoints * env.stride := by
  induction n with
  | zero => intro h; exact absurd rfl h
  | succ n ih =>
    intro _
    simp only [runFor]
    cases hp : (runFor env n).phase with
    | queuedRead =>
        have hi := runFor_queued_eq_init env n hp
        rw [hi]
        cases he : env.engine <;> simp [step, initState, he]
    | retrieved =>
        have h2 := ih (by simp [hp])
        by_cases hm : (runFor env n).rd.errMsg ≠ "" <;> simp [step, hp, hm, h2]
    | sending k offset =>
        have h2 := ih (by simp [hp])
        have hrd : (step env (runFor env n)).rd = (runFor env n).rd := by
          simp only [step, hp]
          split <;> rfl
        rw [hrd, h2]
    | sent =>
        have h2 := ih (by simp [hp])
        simp [step, hp, h2]
    | failedDone =>
        have h2 := ih (by simp [hp])
        simp [step, hp, h2]
    | doneOk =>
        have h2 := ih (by simp [hp])
        simp [step, hp, h2]

theorem step_terminal (env : PipelineEnv) (s : PipState)
    (h : isTerminal s.phase = true) : step env s = s := by
  cases hp : s.phase <;> rw [hp] at h <;> simp [isTerminal] at h <;>
    simp [step, hp]

theorem runFor_terminal_absorb (env : PipelineEnv) (n j : Nat)
    (h : isTerminal (runFor env n).phase = true) :
    runFor env (n + j) = runFor env n := by
  induction j with
  | zero => rfl
  | succ j ih =>
    have e : runFor env (n + (j + 1)) = step env (runFor env (n + j)) := rfl
    rw [e, ih, step_terminal env _ h]

theorem runFor_two_success (env : PipelineEnv) (np : Nat)
    (he : env.engine = .success np) :
    runFor env 2 =
      { phase := .sending 0 0
        rd := { data := true, numPoints := np, numBytes := np * env.stride,
                errMsg := "" }
        cbCalls := [.counts np (np * env.stride)]
        chunks := []
        frees := 0
        sendQueued := true } := by
  have h1 : runFor env 1 =
      { phase := .retrieved
        rd := { data := true, numPoints := np, numBytes := np * env.stride,
                errMsg := "" }
        cbCalls := [], chunks := [], frees := 0, sendQueued := false } := by
    simp [runFor, initState, step, he]
  show step env (runFor env 1) = _
  rw [h1]
  simp [step]

theorem sending_reaches_done (env : PipelineEnv) :
    ∀ (m n k offset : Nat),
      (runFor env n).phase = .sending k offset →
      (runFor env n).rd.numBytes ≤ offset + m * chunkSize →
      (runFor env (n + (m + 2))).phase = .doneOk
      ∧ (runFor env (n + (m + 2))).frees = (runFor env n).frees + 1
      ∧ (runFor env (n + (m + 2))).cbCalls = (runFor env n).cbCalls := by
  intro m
  induction m with
  | zero =>
    intro n k offset hp hb
    have hguard : ¬ (offset < (runFor env n).rd.numBytes ∧ env.obs k = false) := by
      intro hc
      simp only [chunkSize] at hb
      omega
    have e1 : runFor env (n + 1) = { runFor env n with phase := .sent } := by
      show step env (runFor env n) = _
      simp [step, hp, hguard]
    have e2 : runFor env (n + 2) =
        { runFor env n with
          phase := .doneOk
          frees := (runFor env n).frees + 1
          rd := { (runFor env n).rd with data := false } } := by
      show step env (runFor env (n + 1)) = _
      rw [e1]
      simp [step]
    refine ⟨?_, ?_, ?_⟩ <;> rw [show n + (0 + 2) = n + 2 from by omega, e2]
  | succ m ih =>
    intro n k offset hp hb
    by_cases hc : offset < (runFor env n).rd.numBytes ∧ env.obs k = false
    · have e1 : runFor env (n + 1) =
          { runFor env n with
            phase := .sending (k + 1) (offset + chunkSize)
            chunks := (runFor env n).chunks
              ++ [(offset, min chunkSize ((runFor env n).rd.numBytes - offset))] } := by
        show step env (runFor env n) = _
        simp [step, hp, hc]
      have hp1 : (runFor env (n + 1)).phase = .sending (k + 1) (offset + chunkSize) := by
        rw [e1]
      have hb1 : (runFor env (n + 1)).rd.numBytes
          ≤ (offset + chunkSize) + m * chunkSize := by
        rw [e1]
        show (runFor env n).rd.numBytes ≤ (offset + chunkSize) + m * chunkSize
        simp only [chunkSize] at hb ⊢
        omega
      have hres := ih (n + 1) (k + 1) (offset + chunkSize) hp1 hb1
      have harith : n + 1 + (m + 2) = n + (m + 1 + 2) := by omega
      rw [harith] at hres
      have hf : (runFor env (n + 1)).frees = (runFor env n).frees := by rw [e1]
      have hcb : (runFor env (n + 1)).cbCalls = (runFor env n).cbCalls := by rw [e1]
      exact ⟨hres.1, by rw [hres.2.1, hf], by rw [hres.2.2, hcb]⟩
    · have e1 : runFor env (n + 1) = { runFor env n with phase := .sent } := by
        show step env (runFor env n) = _
        simp [step, hp, hc]
      have e2 : runFor env (n + 2) =
          { runFor env n with
            phase := .doneOk
            frees := (runFor env n).frees + 1
            rd := { (runFor env n).rd with data := false } } := by
        show step env (runFor env (n + 1)) = _
        rw [e1]
        simp [step]
      have hterm : isTerminal (runFor env (n + 2)).phase = true := by
        rw [e2]
        exact rfl
      have habs := runFor_terminal_absorb env (n + 2) (m + 1) hterm
      have harith : n + (m + 1 + 2) = n + 2 + (m + 1) := by omega
      rw [harith, habs, e2]
      exact ⟨rfl, rfl, rfl⟩

theorem runFor_chunkInv (env : PipelineEnv) (n : Nat) :
    ∃ k, (runFor env n).chunks
        = (List.range k).map (chunkAt (runFor env n).rd.numBytes)
      ∧ (∀ i, i < k →
          i * chunkSize < (runFor env n).rd.numBytes ∧ env.obs i = false)
      ∧ (∀ a b, (runFor env n).phase = .sending a b → a = k ∧ b = k * chunkSize)
      ∧ ((runFor env n).phase = .queuedRead ∨ (runFor env n).phase = .retrieved
          ∨ (runFor env n).phase = .failedDone → k = 0) := by
  induction n with
  | zero =>
    refine ⟨0, rfl, ?_, ?_, fun _ => rfl⟩
    · intro i hi
      exact absurd hi (Nat.not_lt_zero i)
    · intro a b hab
      exact Phase.noConfusion hab
  | succ n ih =>
    obtain ⟨k, h1, h2, h3, h4⟩ := ih
    cases hp : (runFor env n).phase with
    | queuedRead =>
      have hinit := runFor_queued_eq_init env n hp
      refine ⟨0, ?_, ?_, ?_, fun _ => rfl⟩
      · show (step env (runFor env n)).chunks = _
        rw [hinit]
        cases he : env.engine <;> simp [step, initState, he]
      · intro i hi
        exact absurd hi (Nat.not_lt_zero i)
      · intro a b hab
        have hretr : (runFor env (n + 1)).phase = Phase.retrieved := by
          show (step env (runFor env n)).phase = _
          rw [hinit]
          cases he : env.engine <;> simp [step, initState, he]
        rw [hretr] at hab
        exact Phase.noConfusion hab
    | retrieved =>
      have hk0 : k = 0 := h4 (Or.inr (Or.inl hp))
      subst hk0
      by_cases hm : (runFor env n).rd.errMsg ≠ ""
      · have e1 : runFor env (n + 1) =
            { runFor env n with
              phase := .failedDone
              cbCalls := (runFor env n).cbCalls ++ [.errArg (runFor env n).rd.errMsg]
              frees := (runFor env n).frees + 1
              rd := { (runFor env n).rd with data := false } } := by
          show step env (runFor env n) = _
          simp [step, hp, hm]
        refine ⟨0, ?_, ?_, ?_, fun _ => rfl⟩
        · rw [e1]
          simpa using h1
        · intro i hi
          exact absurd hi (Nat.not_lt_zero i)
        · intro a b hab
          rw [e1] at hab
          exact Phase.noConfusion hab
      · have e1 : runFor env (n + 1) =
            { runFor env n with
              phase := .sending 0 0
              cbCalls := (runFor env n).cbCalls
                ++ [.counts (runFor env n).rd.numPoints (runFor env n).rd.numBytes]
              sendQueued := true } := by
          show step env (runFor env n) = _
          simp [step, hp, hm]
        refine ⟨0, ?_, ?_, ?_, fun _ => rfl⟩
        · rw [e1]
          simpa using h1
        · intro i hi
          exact absurd hi (Nat.not_lt_zero i)
        · intro a b hab
          rw [e1] at hab
          have hab2 : Phase.sending 0 0 = Phase.sending a b := hab
          injection hab2 with ha hb
          exact ⟨ha.symm, by omega⟩
    | sending a0 b0 =>
      obtain ⟨hak, hbk⟩ := h3 a0 b0 hp
      subst hak
      subst hbk
      by_cases hc : a0 * chunkSize < (runFor env n).rd.numBytes ∧ env.obs a0 = false
      · have e1 : runFor env (n + 1) =
            { runFor env n with
              phase := .sending (a0 + 1) (a0 * chunkSize + chunkSize)
              chunks := (runFor env n).chunks
                ++ [(a0 * chunkSize,
                     min chunkSize ((runFor env n).rd.numBytes - a0 * chunkSize))] } := by
          show step env (runFor env n) = _
          simp only [step, hp]
          rw [if_pos hc]
        refine ⟨a0 + 1, ?_, ?_, ?_, ?_⟩
        · rw [e1]
          show (runFor env n).chunks ++ _
              = (List.range (a0 + 1)).map (chunkAt (runFor env n).rd.numBytes)
          rw [List.range_succ, List.map_append, h1]
          rfl
        · intro i hi
          rcases Nat.lt_succ_iff_lt_or_eq.mp hi with h | h
          · refine ⟨?_, (h2 i h).2⟩
            rw [e1]
            exact (h2 i h).1
          · subst h
            refine ⟨?_, hc.2⟩
            rw [e1]
            exact hc.1
        · intro a b hab
          rw [e1] at hab
          have hab2 : Phase.sending (a0 + 1) (a0 * chunkSize + chunkSize)
              = Phase.sending a b := hab
          injection hab2 with ha hb
          refine ⟨ha.symm, ?_⟩
          rw [← hb, Nat.succ_mul]
        · intro hd
          exfalso
          rcases hd with h | h | h <;> rw [e1] at h <;> exact Phase.noConfusion h
      · have e1 : runFor env (n + 1) = { runFor env n with phase := .sent } := by
          show step env (runFor env n) = _
          simp only [step, hp]
          rw [if_neg hc]
        refine ⟨a0, ?_, ?_, ?_, ?_⟩
        · rw [e1]
          exact h1
        · intro i hi
          refine ⟨?_, (h2 i hi).2⟩
          rw [e1]
          exact (h2 i hi).1
        · intro a b hab
          rw [e1] at hab
          exact Phase.noConfusion hab
        · intro hd
          exfalso
          rcases hd with h | h | h <;> rw [e1] at h <;> exact Phase.noConfusion h
    | sent =>
      have e1 : runFor env (n + 1) =
          { runFor env n with
            phase := .doneOk
            frees := (runFor env n).frees + 1
            rd := { (runFor env n).rd with data := false } } := by
        show step env (runFor env n) = _
        simp [step, hp]
      refine ⟨k, ?_, ?_, ?_, ?_⟩
      · rw [e1]
        exact h1
      · intro i hi
        refine ⟨?_, (h2 i hi).2⟩
        rw [e1]
        exact (h2 i hi).1
      · intro a b hab
        rw [e1] at hab
        exact Phase.noConfusion hab
      · intro hd
        exfalso
        rcases hd with h | h | h <;> rw [e1] at h <;> exact Phase.noConfusion h
    | failedDone =>
      have e1 : runFor env (n + 1) = runFor env n := by
        show step env (runFor env n) = _
        simp [step, hp]
      rw [e1]
      exact ⟨k, h1, h2, h3, h4⟩
    | doneOk =>
      have e1 : runFor env (n + 1) = runFor env n := by
        show step env (runFor env n) = _
        simp [step, hp]
      rw [e1]
      exact ⟨k, h1, h2, h3, h4⟩

/-- C2 (amended): in the bindings read pipeline the data array is not
allocated before the retrieval task runs, and the delete of the data
array is executed exactly once, exactly on reaching a terminal phase
(error cleanup or after-send cleanup, covering completed, cancelled and
failed runs alike); the factory-built ReadCommand however allocates its
buffer already in the constructor, sized stride times the dataset total
point count, not by phase 1 and not sized for the eventual result. -/
theorem c2_buffer_lifecycle (env : PipelineEnv) (n : Nat) (sess : PdalSession)
    (host : String) (port : Nat) (schema : Schema) :
    ((runFor env n).frees = if isTerminal (runFor env n).phase then 1 else 0)
    ∧ ((runFor env n).phase = .queuedRead → (runFor env n).rd.data = false)
    ∧ (mkReadCommand sess host port schema).dataAllocated = true
    ∧ (mkReadCommand sess host port schema).dataBytes
        = getStride (schemaOrDefault sess schema) * sess.getNumPoints :=
  ⟨runFor_frees env n,
   fun h => by rw [runFor_queued_eq_init env n h]; rfl,
   rfl, rfl⟩

/-- C2 witness: a concrete run of the pipeline (retrieval succeeded,
stride 4, 3 points, never cancelled) has executed the delete exactly
once by step 6 (terminal), and had no buffer before the retrieval task
ran. -/
theorem c2_witness :
    ((runFor envSuccess 6).frees
        = if isTerminal (runFor envSuccess 6).phase then 1 else 0)
    ∧ (runFor envSuccess 0).rd.data = false :=
  ⟨(c2_buffer_lifecycle envSuccess 6 demoSession "h" 1 demoSchema).1,
   (c2_buffer_lifecycle envSuccess 0 demoSession "h" 1 demoSchema).2.1 rfl⟩

/-- C2 counterexample: a freshly factory-constructed unindexed command
on a 10-point dataset with a stride-4 schema and count 1 already has its
buffer allocated (before any phase-1 run), sized 40 bytes, the stride
times the dataset total point count rather than the eventual result of
the count-1 query. -/
theorem c2_constructor_allocation_counterexample :
    (mkUnindexed demoSession "h" 80 demoSchema 0 1).base.dataAllocated = true
    ∧ (mkUnindexed demoSession "h" 80 demoSchema 0 1).base.hasRun = false
    ∧ (mkUnindexed demoSession "h" 80 demoSchema 0 1).base.dataBytes = 40 :=
  ⟨rfl, rfl, rfl⟩

/-- C4: from the moment the retrieval task has run, numBytes equals
numPoints times the session stride, and the equation is preserved by
every later step of the pipeline; ReadCommand::setNumPoints establishes
the same equation directly for the command object. -/
theorem c4_numbytes_eq_numpoints_times_stride (env : PipelineEnv) (n : Nat)
    (c : ReadCommandState) (np : Nat) :
    ((runFor env n).phase ≠ .queuedRead →
      (runFor env n).rd.numBytes = (runFor env n).rd.numPoints * env.stride)
    ∧ (setNumPoints c np).m_numBytes
        = (setNumPoints c np).m_numPoints * (setNumPoints c np).m_stride :=
  ⟨runFor_numBytes env n, rfl⟩

/-- C4 witness: after one step of a stride-4 pipeline the equation holds
concretely, as it does for setNumPoints on a concrete command. -/
theorem c4_witness :
    (runFor envSuccess 1).rd.numBytes = (runFor envSuccess 1).rd.numPoints * 4
    ∧ (setNumPoints (mkReadCommand demoSession "h" 1 demoSchema) 7).m_numBytes
        = (setNumPoints (mkReadCommand demoSession "h" 1 demoSchema) 7).m_numPoints
          * (setNumPoints (mkReadCommand demoSession "h" 1 demoSchema) 7).m_stride :=
  ⟨(c4_numbytes_eq_numpoints_times_stride envSuccess 1
      (mkReadCommand demoSession "h" 1 demoSchema) 7).1 (by decide),
   (c4_numbytes_eq_numpoints_times_stride envSuccess 1
      (mkReadCommand demoSession "h" 1 demoSchema) 7).2⟩

/-- C6: the cancel flag is only consulted between chunks: at every point
of every run the written chunks are a prefix of the uncancelled chunk
schedule (so no chunk is truncated mid-write), the transmitted byte
count never exceeds numBytes, no chunk with index at or past an
iteration that observed the flag true is ever written, and on the
success path the pipeline still reaches the terminal phase with the
delete executed exactly once and the counts callback as the only
callback invocation, whatever the cancellation observations are. -/
theorem c6_cooperative_cancellation (env : PipelineEnv) (n : Nat) :
    chunkBytes (runFor env n).chunks ≤ (runFor env n).rd.numBytes
    ∧ (∀ k, env.obs k = true → (runFor env n).chunks.length ≤ k)
    ∧ (runFor env n).chunks
        = (transmitChunks (runFor env n).rd.numBytes).take
            (runFor env n).chunks.length
    ∧ (∀ np, env.engine = .success np →
        ∃ m, (runFor env m).phase = .doneOk
          ∧ (runFor env m).frees = 1
          ∧ (runFor env m).cbCalls = [.counts np (np * env.stride)]) := by
  obtain ⟨k, h1, h2, h3, h4⟩ := runFor_chunkInv env n
  have hlen : (runFor env n).chunks.length = k := by
    rw [h1]
    simp
  have hkle : k ≤ numChunks (runFor env n).rd.numBytes := by
    cases k with
    | zero => exact Nat.zero_le _
    | succ j =>
      have hj := (h2 j (by omega)).1
      simp only [numChunks, chunkSize] at hj ⊢
      omega
  refine ⟨?_, ?_, ?_, ?_⟩
  · rw [h1, chunkBytes_range_map]
    exact Nat.min_le_left _ _
  · intro k0 hk0
    rw [hlen]
    by_contra hlt
    push_neg at hlt
    have hobs := (h2 k0 hlt).2
    rw [hobs] at hk0
    exact Bool.false_ne_true hk0
  · rw [hlen, h1, transmitChunks_closed, ← List.map_take, List.take_range,
      Nat.min_eq_left hkle]
  · intro np he
    have h2s := runFor_two_success env np he
    have hp2 : (runFor env 2).phase = .sending 0 0 := by rw [h2s]
    have hb2 : (runFor env 2).rd.numBytes
        ≤ 0 + ((np * env.stride) / chunkSize + 1) * chunkSize := by
      rw [h2s]
      show np * env.stride ≤ _
      simp only [chunkSize]
      omega
    have hres := sending_reaches_done env ((np * env.stride) / chunkSize + 1)
      2 0 0 hp2 hb2
    refine ⟨2 + ((np * env.stride) / chunkSize + 1 + 2), hres.1, ?_, ?_⟩
    · rw [hres.2.1, h2s]
    · rw [hres.2.2, h2s]

/-- C6 witness: with 140000 bytes to send and the flag observed true
from the check before chunk 1 on, at most one chunk is written, and the
run still reaches the terminal phase with one delete and exactly the one
counts callback. -/
theorem c6_witness :
    (runFor envCancel 20).chunks.length ≤ 1
    ∧ ∃ m, (runFor envCancel m).phase = .doneOk
        ∧ (runFor envCancel m).frees = 1
        ∧ (runFor envCancel m).cbCalls = [.counts 70000 (70000 * 2)] :=
  ⟨(c6_cooperative_cancellation envCancel 20).2.1 1 rfl,
   (c6_cooperative_cancellation envCancel 20).2.2.2 70000 rfl⟩

/-- C7: when the retrieval task fails with a (non-empty) caught message,
the pipeline reaches the failed terminal phase, the completion callback
is invoked exactly once with the message as its sole argument, the data
array delete is executed exactly once, the transmission task is never
queued and no chunk is ever written. -/
theorem c7_retrieval_failure (env : PipelineEnv) (m : String) (n : Nat)
    (he : env.engine = .failure m) (hm : m ≠ "") (hn : 2 ≤ n) :
    (runFor env n).phase = .failedDone
    ∧ (runFor env n).cbCalls = [.errArg m]
    ∧ (runFor env n).frees = 1
    ∧ (runFor env n).sendQueued = false
    ∧ (runFor env n).chunks = [] := by
  have h2 : runFor env 2 =
      { phase := .failedDone
        rd := { data := false, numPoints := 0, numBytes := 0, errMsg := m }
        cbCalls := [.errArg m], chunks := [], frees := 1, sendQueued := false } := by
    have h1 : runFor env 1 =
        { phase := .retrieved
          rd := { data := false, numPoints := 0, numBytes := 0, errMsg := m }
          cbCalls := [], chunks := [], frees := 0, sendQueued := false } := by
      simp [runFor, initState, step, he]
    show step env (runFor env 1) = _
    rw [h1]
    simp [step, hm]
  have hterm : isTerminal (runFor env 2).phase = true := by
    rw [h2]
    exact rfl
  have habs := runFor_terminal_absorb env 2 (n - 2) hterm
  have hn2 : runFor env n = runFor env 2 := by
    rw [show n = 2 + (n - 2) from by omega]
    exact habs
  rw [hn2, h2]
  exact ⟨rfl, rfl, rfl, rfl, rfl⟩

/-- C7 witness: a retrieval failing with the message boom reaches the
failed terminal phase by step 3 with the single error callback, one
delete, no transmission task and no chunks. -/
theorem c7_witness :
    (runFor envFailure 3).phase = .failedDone
    ∧ (runFor envFailure 3).cbCalls = [.errArg "boom"]
    ∧ (runFor envFailure 3).frees = 1
    ∧ (runFor envFailure 3).sendQueued = false
    ∧ (runFor envFailure 3).chunks = [] :=
  c7_retrieval_failure envFailure "boom" 3 rfl (by decide) (by omega)
